import Mathlib

/-!
Formal model of `main.go` from the realtorca repository.

The program is a single-invocation job: fetch listings from a search API,
lazily load a durable set of already-seen listing ids from DynamoDB, send a
notification for each unseen listing, append the id of each notified listing
to the in-memory working set, and flush the working set back to DynamoDB in a
deferred call that runs on every exit path after the DB handle is created.

The external collaborators (HTTP fetch, DynamoDB get/put, SNS publish) are
modelled by an `Env` record giving the outcome of each call for one run.
Machine state threaded through the run: the `DB` value (pointer receiver in
Go, hence explicit state passing here) and the durable record
(`Option (List String)`: absent, or present with its seen id list).

Go `panic` (nil pointer dereference) and `log.Fatal` (process exit) are
distinct terminal outcomes of a run and are modelled as such.
-/

namespace Realtorca

/-- Constant baseURL from main.go line 24. -/
def baseURL : String := "https://realtor.ca"

/-- Constant dynamoPartitionKeyValue from main.go line 27. -/
def dynamoPartitionKeyValue : String := "seen-listings"

/-- Struct Listing (main.go lines 77-80). -/
structure Listing where
  ID : String
  RelativeDetailsURL : String
deriving DecidableEq

/-- Method Listing.URL (main.go lines 82-84). -/
def Listing.URL (l : Listing) : String := baseURL ++ l.RelativeDetailsURL

/-- Struct Listings: the decoded search response (main.go lines 86-88). -/
structure Listings where
  Results : List Listing
deriving DecidableEq

/-- Struct ListingCache: the durable record shape and the in-memory working
set (main.go lines 90-93). -/
structure ListingCache where
  PartitionKey : String
  SeenIDs : List String
deriving DecidableEq

/-- Failure of the listing fetch (network error, read error, or JSON decode
error in fetchListings, main.go lines 233-252). -/
inductive FetchError where
  | requestFailed
  | decodeFailed
deriving DecidableEq

/-- Failure of the durable store: a DynamoDB read error (refreshCache), a
write error (Flush), or the MarkSeen contract error
"cache is not populated yet" (main.go line 139). -/
inductive StoreError where
  | readFailure
  | writeFailure
  | cacheNotPopulated
deriving DecidableEq

/-- Failure of the SNS publish in SendListingAlert (main.go lines 174-181). -/
inductive NotifyError where
  | publishFailure
deriving DecidableEq

/-- Outcomes of the external collaborator calls for one run: the fetch
result, the result of the single DynamoDB GetItem (absent record is `none`),
whether the SNS publish succeeds for a given listing, and whether the
DynamoDB PutItem succeeds. -/
structure Env where
  fetchResult : Except FetchError Listings
  getItem : Except StoreError (Option (List String))
  notifyOk : Listing → Bool
  putItemOk : Bool

/-- Struct DB (main.go lines 95-98). The Go `cache *ListingCache` nil pointer
is `none`; the dynamo client handle lives in `Env`. -/
structure DB where
  cache : Option ListingCache
deriving DecidableEq

/-- NewDB (main.go lines 100-102): the cache pointer starts nil. -/
def NewDB : DB := { cache := none }

/-- Decoding of the fetched durable record into the cache
(`dynamodbattribute.UnmarshalMap` at main.go line 129).
Modelled from the spec: the attribute-marshaling library is outside this
repository; per the spec's durable boundary (§6, §4.2 lazy-load policy) an
absent record and a present-but-empty record both yield an empty working
set. A present record carries the echoed partition key and its id list. -/
def unmarshalCacheRecord : Option (List String) → ListingCache
  | none => { PartitionKey := "", SeenIDs := [] }
  | some ids => { PartitionKey := dynamoPartitionKeyValue, SeenIDs := ids }

/-- Method DB.refreshCache (main.go lines 118-134): one GetItem against the
fixed partition key; on success the decoded record is stored in `db.cache`.
The Go function returns only `error` and fills `db.cache` as a side effect;
here the populated cache is returned explicitly alongside the new state. -/
def DB.refreshCache (env : Env) (db : DB) : Except StoreError (ListingCache × DB) :=
  match env.getItem with
  | .error e => .error e
  | .ok item =>
      let c := unmarshalCacheRecord item
      .ok (c, { db with cache := some c })

/-- The linear scan over SeenIDs inside DB.Seen (main.go lines 110-115). -/
def seenInList (id : String) : List String → Bool
  | [] => false
  | s :: rest => if id = s then true else seenInList id rest

/-- Method DB.Seen (main.go lines 104-116): lazy load on first call (nil
cache), then a linear membership scan. Returns the (bool, error) pair
together with the possibly-updated DB state. -/
def DB.Seen (env : Env) (db : DB) (l : Listing) : Except StoreError Bool × DB :=
  match db.cache with
  | some c => (.ok (seenInList l.ID c.SeenIDs), db)
  | none =>
      match db.refreshCache env with
      | .error e => (.error e, db)
      | .ok (c, db') => (.ok (seenInList l.ID c.SeenIDs), db')

/-- Method DB.MarkSeen (main.go lines 136-143): errors on a nil cache,
otherwise appends the listing id to SeenIDs. -/
def DB.MarkSeen (db : DB) (l : Listing) : Except StoreError Unit × DB :=
  match db.cache with
  | none => (.error .cacheNotPopulated, db)
  | some c => (.ok (), { db with cache := some { c with SeenIDs := c.SeenIDs ++ [l.ID] } })

/-- Outcome of DB.Flush: success, a PutItem write failure, or the nil-pointer
panic at main.go line 147 (`db.cache.PartitionKey = ...` with a nil cache). -/
inductive FlushOutcome where
  | ok
  | writeFailed
  | nilCachePanic
deriving DecidableEq

/-- Method DB.Flush (main.go lines 145-160): sets the partition key on the
cache (dereferencing the cache pointer — a nil cache panics here), marshals
it (marshaling this struct shape cannot fail), and PutItems it, overwriting
the durable record. Returns the outcome, the new DB state and the new
durable record. -/
def DB.Flush (env : Env) (db : DB) (durable : Option (List String)) :
    FlushOutcome × DB × Option (List String) :=
  match db.cache with
  | none => (.nilCachePanic, db, durable)
  | some c =>
      let c' := { c with PartitionKey := dynamoPartitionKeyValue }
      let db' := { db with cache := some c' }
      if env.putItemOk then (.ok, db', some c'.SeenIDs)
      else (.writeFailed, db', durable)

/-- Notifier.formatMessage (main.go lines 183-185). -/
def formatMessage (l : Listing) : String := l.URL

/-- Notifier.formatSubject (main.go lines 187-190). -/
def formatSubject (_ : Listing) : String := "New listing on Realtor.ca"

/-- Notifier.SendListingAlert (main.go lines 174-181): one SNS publish whose
success is decided by the environment. -/
def sendListingAlert (env : Env) (l : Listing) : Except NotifyError Unit :=
  if env.notifyOk l then .ok () else .error .publishFailure

/-- How the per-listing loop in HandleRequest terminated. -/
inductive LoopExit where
  | completed
  | seenErr (e : StoreError)
  | notifyErr (e : NotifyError)
deriving DecidableEq

/-- The per-listing loop of HandleRequest (main.go lines 215-228): for each
listing, ask Seen; on Seen error return it; if unseen, send the alert — on
send error return it (before MarkSeen) — then MarkSeen with its error
discarded (`_ = db.MarkSeen(ctx, listing)`). `notified` accumulates, in
order, every listing passed to SendListingAlert. -/
def processListings (env : Env) (db : DB) (notified : List Listing) :
    List Listing → DB × List Listing × LoopExit
  | [] => (db, notified, .completed)
  | l :: rest =>
      match DB.Seen env db l with
      | (.error e, db') => (db', notified, .seenErr e)
      | (.ok true, db') => processListings env db' notified rest
      | (.ok false, db') =>
          match sendListingAlert env l with
          | .error e => (db', notified ++ [l], .notifyErr e)
          | .ok _ => processListings env (db'.MarkSeen l).2 (notified ++ [l]) rest

/-- The error value HandleRequest returns. -/
inductive RunError where
  | fetch (e : FetchError)
  | store (e : StoreError)
  | notify (e : NotifyError)
deriving DecidableEq

/-- Terminal outcome of one HandleRequest invocation: a normal nil return, an
error return, a panic (nil cache dereferenced in the deferred Flush), or the
`log.Fatal` process exit taken when the deferred Flush returns an error
(main.go lines 206-211). -/
inductive RunResult where
  | ok
  | err (e : RunError)
  | panicked
  | fatalExit (e : StoreError)
deriving DecidableEq

/-- Everything observable about one run: how it ended, the ordered list of
listings passed to SendListingAlert, and the durable record afterwards. -/
structure RunReport where
  result : RunResult
  notified : List Listing
  durable : Option (List String)
deriving DecidableEq

/-- HandleRequest (main.go lines 192-231). A fetch error returns before the
deferred Flush is registered, so the durable record is untouched. Otherwise
the loop runs and the deferred Flush executes on every exit path: a nil
cache panics inside Flush, a write failure hits `log.Fatal`, and only when
Flush succeeds does the loop's own result (nil or the loop error, fixed
before the defer ran — the return value is not named, so the defer cannot
change it) become the run's result. -/
def HandleRequest (env : Env) (durable : Option (List String)) : RunReport :=
  match env.fetchResult with
  | .error e => { result := .err (.fetch e), notified := [], durable := durable }
  | .ok listings =>
      let r := processListings env NewDB [] listings.Results
      match r.1.Flush env durable with
      | (.nilCachePanic, _, d') => { result := .panicked, notified := r.2.1, durable := d' }
      | (.writeFailed, _, d') => { result := .fatalExit .writeFailure, notified := r.2.1, durable := d' }
      | (.ok, _, d') =>
          { result :=
              match r.2.2 with
              | .completed => .ok
              | .seenErr e => .err (.store e)
              | .notifyErr e => .err (.notify e),
            notified := r.2.1, durable := d' }

/-- The id list denoted by a durable record (absent denotes the empty list). -/
def durableIds : Option (List String) → List String
  | none => []
  | some ids => ids

/-- The working-set id list of a DB, when its cache is populated. -/
def seenIdsOfDB (db : DB) : Option (List String) :=
  match db.cache with
  | none => none
  | some c => some c.SeenIDs

/-- Reference loop: what the per-listing loop computes once the cache is
loaded and every send succeeds — the notified listings and the final
working-set ids, starting from working set `seen`. -/
def runPure (seen : List String) : List Listing → List Listing × List String
  | [] => ([], seen)
  | l :: rest =>
      if seenInList l.ID seen then runPure seen rest
      else
        let p := runPure (seen ++ [l.ID]) rest
        (l :: p.1, p.2)

/-! ## Basic lemmas about the membership scan -/

theorem seenInList_eq_true_iff (id : String) (s : List String) :
    seenInList id s = true ↔ id ∈ s := by
  induction s with
  | nil => simp [seenInList]
  | cons a t ih =>
      by_cases h : id = a <;> simp [seenInList, h, ih]

theorem seenInList_eq_false_iff (id : String) (s : List String) :
    seenInList id s = false ↔ id ∉ s := by
  rw [← seenInList_eq_true_iff id s]
  cases seenInList id s <;> simp

/-! ## The loop once the cache is loaded and every send succeeds -/

theorem processListings_loaded (env : Env) :
    ∀ (ls : List Listing) (pk : String) (seen : List String) (acc : List Listing),
      (∀ l ∈ ls, env.notifyOk l = true) →
      processListings env ⟨some ⟨pk, seen⟩⟩ acc ls =
        (⟨some ⟨pk, (runPure seen ls).2⟩⟩, acc ++ (runPure seen ls).1, .completed) := by
  intro ls
  induction ls with
  | nil => intro pk seen acc _; simp [processListings, runPure]
  | cons l rest ih =>
      intro pk seen acc h
      have hl : env.notifyOk l = true := h l (List.mem_cons_self l rest)
      have hrest : ∀ x ∈ rest, env.notifyOk x = true :=
        fun x hx => h x (List.mem_cons_of_mem l hx)
      cases hs : seenInList l.ID seen with
      | true =>
          simp [processListings, DB.Seen, hs, runPure, ih pk seen acc hrest]
      | false =>
          simp [processListings, DB.Seen, hs, runPure, sendListingAlert, hl, DB.MarkSeen,
            ih _ _ _ hrest]

theorem processListings_all_seen (env : Env) :
    ∀ (ls : List Listing) (db : DB) (acc : List Listing) (c : ListingCache),
      db.cache = some c →
      (∀ l ∈ ls, l.ID ∈ c.SeenIDs) →
      processListings env db acc ls = (db, acc, .completed) := by
  intro ls
  induction ls with
  | nil => intro db acc c _ _; simp [processListings]
  | cons l rest ih =>
      intro db acc c hc h
      have hl : seenInList l.ID c.SeenIDs = true :=
        (seenInList_eq_true_iff _ _).mpr (h l (List.mem_cons_self l rest))
      have hrest : ∀ x ∈ rest, x.ID ∈ c.SeenIDs :=
        fun x hx => h x (List.mem_cons_of_mem l hx)
      simp [processListings, DB.Seen, hc, hl, ih db acc c hc hrest]

theorem processListings_none_cons (env : Env) (item : Option (List String))
    (h : env.getItem = .ok item) (l : Listing) (rest acc : List Listing) :
    processListings env ⟨none⟩ acc (l :: rest) =
      processListings env ⟨some (unmarshalCacheRecord item)⟩ acc (l :: rest) := by
  simp [processListings, DB.Seen, DB.refreshCache, h]

theorem processListings_cache_prefix (env : Env) :
    ∀ (ls : List Listing) (db : DB) (acc : List Listing) (c : ListingCache),
      db.cache = some c →
      ∃ c', ((processListings env db acc ls).1).cache = some c' ∧
        c.PartitionKey = c'.PartitionKey ∧ c.SeenIDs <+: c'.SeenIDs := by
  intro ls
  induction ls with
  | nil => intro db acc c hc; exact ⟨c, by simp [processListings, hc], rfl, List.prefix_refl _⟩
  | cons l rest ih =>
      intro db acc c hc
      cases hs : seenInList l.ID c.SeenIDs with
      | true =>
          simpa [processListings, DB.Seen, hc, hs] using ih db acc c hc
      | false =>
          cases hn : env.notifyOk l with
          | false =>
              exact ⟨c, by simp [processListings, DB.Seen, hc, hs, sendListingAlert, hn],
                rfl, List.prefix_refl _⟩
          | true =>
              have step := ih ⟨some { c with SeenIDs := c.SeenIDs ++ [l.ID] }⟩
                (acc ++ [l]) { c with SeenIDs := c.SeenIDs ++ [l.ID] } rfl
              rcases step with ⟨c', hcache, hpk, hpre⟩
              refine ⟨c', ?_, hpk, List.IsPrefix.trans (List.prefix_append _ _) hpre⟩
              simpa [processListings, DB.Seen, hc, hs, sendListingAlert, hn, DB.MarkSeen]
                using hcache

/-! ## Lemmas about the reference loop -/

theorem runPure_snd_mem :
    ∀ (ls : List Listing) (seen : List String) (x : String),
      x ∈ (runPure seen ls).2 ↔ x ∈ seen ∨ x ∈ ls.map Listing.ID := by
  intro ls
  induction ls with
  | nil => intro seen x; simp [runPure]
  | cons l rest ih =>
      intro seen x
      cases hs : seenInList l.ID seen with
      | true =>
          have hmem : l.ID ∈ seen := (seenInList_eq_true_iff _ _).mp hs
          simp only [runPure, hs, if_pos, List.map_cons, List.mem_cons]
          rw [ih]
          constructor
          · rintro (h | h)
            · exact Or.inl h
            · exact Or.inr (Or.inr h)
          · rintro (h | h | h)
            · exact Or.inl h
            · exact Or.inl (h ▸ hmem)
            · exact Or.inr h
      | false =>
          have h2 := ih (seen ++ [l.ID]) x
          simp only [List.mem_append, List.mem_singleton] at h2
          simp [runPure, hs, h2]
          tauto

theorem runPure_all_seen :
    ∀ (ls : List Listing) (seen : List String),
      (∀ l ∈ ls, l.ID ∈ seen) →
      runPure seen ls = ([], seen) := by
  intro ls
  induction ls with
  | nil => intro seen _; simp [runPure]
  | cons l rest ih =>
      intro seen h
      have hl : seenInList l.ID seen = true :=
        (seenInList_eq_true_iff _ _).mpr (h l (List.mem_cons_self l rest))
      simp [runPure, hl, ih seen (fun x hx => h x (List.mem_cons_of_mem l hx))]

theorem runPure_snd_eq_append :
    ∀ (ls : List Listing) (seen : List String),
      (runPure seen ls).2 = seen ++ ((runPure seen ls).1).map Listing.ID := by
  intro ls
  induction ls with
  | nil => intro seen; simp [runPure]
  | cons l rest ih =>
      intro seen
      cases hs : seenInList l.ID seen with
      | true => simpa [runPure, hs] using ih seen
      | false => simp [runPure, hs, ih (seen ++ [l.ID])]

theorem runPure_count :
    ∀ (ls : List Listing) (seen : List String) (id : String),
      (((runPure seen ls).1).map Listing.ID).count id =
        if id ∉ seen ∧ id ∈ ls.map Listing.ID then 1 else 0 := by
  intro ls
  induction ls with
  | nil => intro seen id; simp [runPure]
  | cons l rest ih =>
      intro seen id
      cases hs : seenInList l.ID seen with
      | true =>
          have hmem : l.ID ∈ seen := (seenInList_eq_true_iff _ _).mp hs
          rw [show runPure seen (l :: rest) = runPure seen rest from by simp [runPure, hs]]
          rw [ih seen id]
          by_cases hid : id = l.ID
          · subst hid; simp [hmem]
          · simp [hid]
      | false =>
          have hnm : l.ID ∉ seen := (seenInList_eq_false_iff _ _).mp hs
          rw [show runPure seen (l :: rest) =
              (l :: (runPure (seen ++ [l.ID]) rest).1, (runPure (seen ++ [l.ID]) rest).2)
            from by simp [runPure, hs]]
          simp only [List.map_cons, List.count_cons]
          rw [ih (seen ++ [l.ID]) id]
          by_cases hid : id = l.ID
          · subst hid; simp [hnm, List.mem_append]
          · simp [hid, Ne.symm hid, List.mem_append]

theorem runPure_first_mem :
    ∀ (xs : List Listing) (seen : List String) (a : Listing) (rest : List Listing),
      a.ID ∉ seen → a.ID ∉ xs.map Listing.ID →
      a ∈ (runPure seen (xs ++ a :: rest)).1 := by
  intro xs
  induction xs with
  | nil =>
      intro seen a rest ha _
      have hs : seenInList a.ID seen = false := (seenInList_eq_false_iff _ _).mpr ha
      simp [runPure, hs]
  | cons x xs ih =>
      intro seen a rest ha hxs
      simp only [List.map_cons, List.mem_cons] at hxs
      push_neg at hxs
      obtain ⟨hax, hxs'⟩ := hxs
      cases hs : seenInList x.ID seen with
      | true =>
          simp only [List.cons_append]
          rw [show runPure seen (x :: (xs ++ a :: rest)) = runPure seen (xs ++ a :: rest)
            from by simp [runPure, hs]]
          exact ih seen a rest ha hxs'
      | false =>
          simp only [List.cons_append]
          rw [show runPure seen (x :: (xs ++ a :: rest)) =
              (x :: (runPure (seen ++ [x.ID]) (xs ++ a :: rest)).1,
               (runPure (seen ++ [x.ID]) (xs ++ a :: rest)).2) from by simp [runPure, hs]]
          have ha' : a.ID ∉ seen ++ [x.ID] := by simp [List.mem_append, ha, hax]
          exact List.mem_cons_of_mem x (ih (seen ++ [x.ID]) a rest ha' hxs')

/-! ## Characterization of a whole run on the fully successful path -/

theorem HandleRequest_loaded (env : Env) (d : Option (List String)) (s : List String)
    (ls : List Listing) (hne : ls ≠ [])
    (hfetch : env.fetchResult = .ok ⟨ls⟩)
    (hget : env.getItem = .ok (some s))
    (hnotify : ∀ x ∈ ls, env.notifyOk x = true)
    (hput : env.putItemOk = true) :
    HandleRequest env d =
      { result := .ok,
        notified := (runPure s ls).1,
        durable := some ((runPure s ls).2) } := by
  cases ls with
  | nil => exact absurd rfl hne
  | cons l rest =>
      have hloop := processListings_loaded env (l :: rest) dynamoPartitionKeyValue s [] hnotify
      simp only [HandleRequest, hfetch]
      rw [show NewDB = (⟨none⟩ : DB) from rfl]
      rw [processListings_none_cons env (some s) hget l rest []]
      rw [show unmarshalCacheRecord (some s) = ⟨dynamoPartitionKeyValue, s⟩ from rfl]
      rw [hloop]
      simp [DB.Flush, hput]

/-! ## Concrete fixtures for witnesses and counterexamples -/

/-- A first concrete listing. -/
def lA : Listing := ⟨"A", "/a"⟩

/-- A second concrete listing. -/
def lB : Listing := ⟨"B", "/b"⟩

/-- A third concrete listing. -/
def lC : Listing := ⟨"C", "/c"⟩

/-- A listing sharing its id with lA (duplicate occurrence). -/
def lA2 : Listing := ⟨"A", "/a2"⟩

/-- Environment: three unseen listings fetched, the publish for lB is
rejected, everything else succeeds. -/
def envNotifyFailB : Env :=
  { fetchResult := .ok ⟨[lA, lB, lC]⟩
    getItem := .ok (some [])
    notifyOk := fun l => l.ID != "B"
    putItemOk := true }

/-- Environment: the listing fetch itself fails. -/
def envFetchFail : Env :=
  { fetchResult := .error .requestFailed
    getItem := .ok (some [])
    notifyOk := fun _ => true
    putItemOk := true }

/-- Environment: fetch succeeds with one listing, the DynamoDB read fails. -/
def envReadFail : Env :=
  { fetchResult := .ok ⟨[lA]⟩
    getItem := .error .readFailure
    notifyOk := fun _ => true
    putItemOk := true }

/-- Environment: prior seen-set contains only the id of lA, fetch returns
lA, lB, lC, every collaborator call succeeds. -/
def envPriorA : Env :=
  { fetchResult := .ok ⟨[lA, lB, lC]⟩
    getItem := .ok (some ["A"])
    notifyOk := fun _ => true
    putItemOk := true }

/-- Environment: first run of the re-run scenario (empty prior seen-set,
fetch returns lA then lB, all calls succeed). -/
def envRun1 : Env :=
  { fetchResult := .ok ⟨[lA, lB]⟩
    getItem := .ok (some [])
    notifyOk := fun _ => true
    putItemOk := true }

/-- Environment: second run of the re-run scenario, loading the seen-set the
first run durably produced. -/
def envRun2 : Env :=
  { fetchResult := .ok ⟨[lA, lB]⟩
    getItem := .ok (some ["A", "B"])
    notifyOk := fun _ => true
    putItemOk := true }

/-- Environment: fetch returns lA, a second listing with the same id, then
lB; every collaborator call succeeds. -/
def envDupFetch : Env :=
  { fetchResult := .ok ⟨[lA, lA2, lB]⟩
    getItem := .ok (some [])
    notifyOk := fun _ => true
    putItemOk := true }

/-- Environment: fetch succeeds with zero listings. -/
def envEmptyFetch : Env :=
  { fetchResult := .ok ⟨[]⟩
    getItem := .ok (some ["X"])
    notifyOk := fun _ => true
    putItemOk := true }

/-- Environment: the durable record is absent. -/
def envAbsentRecord : Env :=
  { fetchResult := .ok ⟨[lA]⟩
    getItem := .ok none
    notifyOk := fun _ => true
    putItemOk := true }

/-- Environment: the durable record is present with an empty id sequence. -/
def envEmptyRecord : Env :=
  { fetchResult := .ok ⟨[lA]⟩
    getItem := .ok (some [])
    notifyOk := fun _ => true
    putItemOk := true }

/-- A DB whose working set is loaded and already contains id A. -/
def dbWithA : DB := ⟨some ⟨"seen-listings", ["A"]⟩⟩

/-! ## Claim C1 -/

/-- C1 counterexample: with three unseen listings and the notifier failing
on the second (lB), the code returns the notify error from the loop before
reaching MarkSeen (main.go lines 222-226), so the durable seen-set after the
run is exactly ["A"]: it does not contain the failed listing's id "B",
contrary to the claim that the failed listing is marked seen unconditionally
and its identifier flushed. -/
theorem C1_counterexample :
    (HandleRequest envNotifyFailB (some [])).durable = some ["A"] ∧
    "B" ∉ durableIds ((HandleRequest envNotifyFailB (some [])).durable) ∧
    (HandleRequest envNotifyFailB (some [])).result = .err (.notify .publishFailure) := by
  decide

/-- C1 (amended): if the notifier's send fails for one listing, the
remaining loop iterations are aborted and the working set accumulated so far
is still flushed, but the listing whose send failed is NOT marked seen
(MarkSeen runs only after a successful send): for a run over 3 unseen
listings where the notifier fails on the 2nd, the durable seen-set after the
run contains the 1st identifier and excludes both the 2nd and the 3rd. -/
theorem C1_notify_failure_flushes_accumulated_set
    (env : Env) (d : Option (List String)) (s : List String) (a b c : Listing)
    (hfetch : env.fetchResult = .ok ⟨[a, b, c]⟩)
    (hget : env.getItem = .ok (some s))
    (ha : a.ID ∉ s) (hb : b.ID ∉ s) (hc : c.ID ∉ s)
    (hba : b.ID ≠ a.ID) (hca : c.ID ≠ a.ID)
    (hna : env.notifyOk a = true) (hnb : env.notifyOk b = false)
    (hput : env.putItemOk = true) :
    (HandleRequest env d).result = .err (.notify .publishFailure) ∧
    (HandleRequest env d).notified = [a, b] ∧
    (HandleRequest env d).durable = some (s ++ [a.ID]) ∧
    b.ID ∉ durableIds ((HandleRequest env d).durable) ∧
    c.ID ∉ durableIds ((HandleRequest env d).durable) := by
  have hsa : seenInList a.ID s = false := (seenInList_eq_false_iff _ _).mpr ha
  have hsb : seenInList b.ID (s ++ [a.ID]) = false := by
    rw [seenInList_eq_false_iff]
    simp [List.mem_append, hb, hba]
  simp only [HandleRequest, hfetch]
  rw [show NewDB = (⟨none⟩ : DB) from rfl]
  simp only [processListings, DB.Seen, DB.refreshCache, hget, unmarshalCacheRecord,
    hsa, sendListingAlert, hna, DB.MarkSeen, hsb, hnb]
  simp [DB.Flush, hput, durableIds, List.mem_append, hb, hba, hc, hca]

/-- C1 witness: the amended theorem instantiated at the concrete
notify-fails-on-lB scenario. -/
theorem C1_witness :
    (HandleRequest envNotifyFailB (some [])).result = .err (.notify .publishFailure) ∧
    (HandleRequest envNotifyFailB (some [])).notified = [lA, lB] ∧
    (HandleRequest envNotifyFailB (some [])).durable = some ([] ++ [lA.ID]) ∧
    lB.ID ∉ durableIds ((HandleRequest envNotifyFailB (some [])).durable) ∧
    lC.ID ∉ durableIds ((HandleRequest envNotifyFailB (some [])).durable) :=
  C1_notify_failure_flushes_accumulated_set envNotifyFailB (some []) [] lA lB lC
    rfl rfl (by decide) (by decide) (by decide) (by decide) (by decide)
    (by decide) (by decide) rfl

/-! ## Claim C2 -/

/-- C2 counterexample: when the first isSeen lazy load fails, the durable
record is indeed unchanged and nothing is notified, but the run does NOT
simply abort with the store error and skip the flush: the deferred Flush
(main.go lines 206-211) still runs and dereferences the nil cache at line
147, so the run panics — the result is `panicked`, which in this model only
the Flush call can produce, not the store-error return the claim
describes. -/
theorem C2_counterexample :
    (HandleRequest envReadFail (some ["Z"])).result = .panicked ∧
    (HandleRequest envReadFail (some ["Z"])).result ≠ .err (.store .readFailure) ∧
    (HandleRequest envReadFail (some ["Z"])).durable = some ["Z"] ∧
    (HandleRequest envReadFail (some ["Z"])).notified = [] := by
  decide

/-- C2 (amended): a FetchError aborts the run with no flush attempted and
the durable record unchanged; a StoreError from the first isSeen call stops
the loop before any notification and before any durable write — the durable
record is exactly what it was before the run — but the deferred flush is
still invoked and panics on the nil working set instead of returning the
store error. -/
theorem C2_abort_preserves_durable :
    (∀ (env : Env) (d : Option (List String)) (e : FetchError),
      env.fetchResult = .error e →
      HandleRequest env d = { result := .err (.fetch e), notified := [], durable := d }) ∧
    (∀ (env : Env) (d : Option (List String)) (e : StoreError)
        (l : Listing) (rest : List Listing),
      env.fetchResult = .ok ⟨l :: rest⟩ → env.getItem = .error e →
      HandleRequest env d = { result := .panicked, notified := [], durable := d }) := by
  constructor
  · intro env d e h
    simp [HandleRequest, h]
  · intro env d e l rest hf hg
    simp [HandleRequest, hf, processListings, DB.Seen, NewDB, DB.refreshCache, hg, DB.Flush]

/-- C2 witness: both abort modes at concrete inputs — a failing fetch, and a
failing durable read with one fetched listing. -/
theorem C2_witness :
    HandleRequest envFetchFail (some ["Z"]) =
      { result := .err (.fetch .requestFailed), notified := [], durable := some ["Z"] } ∧
    HandleRequest envReadFail (some ["Z"]) =
      { result := .panicked, notified := [], durable := some ["Z"] } :=
  ⟨C2_abort_preserves_durable.1 envFetchFail (some ["Z"]) .requestFailed rfl,
   C2_abort_preserves_durable.2 envReadFail (some ["Z"]) .readFailure lA [] rfl rfl⟩

/-! ## Claim C3 -/

/-- C3: with prior seen-set containing exactly the first listing's id and a
fetch returning a, b, c in order (pairwise distinct ids), the run sends
exactly notify(b) then notify(c), never notifies a, and the durable seen-set
after the flush holds exactly the ids of a, b and c (stated
order-independently as a membership equivalence). -/
theorem C3_prior_seen_scenario (env : Env) (d : Option (List String)) (a b c : Listing)
    (hfetch : env.fetchResult = .ok ⟨[a, b, c]⟩)
    (hget : env.getItem = .ok (some [a.ID]))
    (hba : b.ID ≠ a.ID) (hca : c.ID ≠ a.ID) (hcb : c.ID ≠ b.ID)
    (hnotify : ∀ x ∈ [a, b, c], env.notifyOk x = true)
    (hput : env.putItemOk = true) :
    (HandleRequest env d).notified = [b, c] ∧
    a.ID ∉ ((HandleRequest env d).notified).map Listing.ID ∧
    (HandleRequest env d).durable = some [a.ID, b.ID, c.ID] ∧
    (∀ x, x ∈ durableIds ((HandleRequest env d).durable) ↔
      (x = a.ID ∨ x = b.ID ∨ x = c.ID)) ∧
    (HandleRequest env d).result = .ok := by
  rw [HandleRequest_loaded env d [a.ID] [a, b, c] (by simp) hfetch hget hnotify hput]
  have h1 : seenInList a.ID [a.ID] = true := by simp [seenInList]
  have h2 : seenInList b.ID [a.ID] = false := by simp [seenInList, hba]
  have h3 : seenInList c.ID [a.ID, b.ID] = false := by simp [seenInList, hca, hcb]
  simp [runPure, h1, h2, h3, durableIds, Ne.symm hba, Ne.symm hca]

/-- C3 witness: the scenario at concrete listings lA, lB, lC with prior
seen-set ["A"]. -/
theorem C3_witness :
    (HandleRequest envPriorA (some ["A"])).notified = [lB, lC] ∧
    lA.ID ∉ ((HandleRequest envPriorA (some ["A"])).notified).map Listing.ID ∧
    (HandleRequest envPriorA (some ["A"])).durable = some [lA.ID, lB.ID, lC.ID] ∧
    (∀ x, x ∈ durableIds ((HandleRequest envPriorA (some ["A"])).durable) ↔
      (x = lA.ID ∨ x = lB.ID ∨ x = lC.ID)) ∧
    (HandleRequest envPriorA (some ["A"])).result = .ok :=
  C3_prior_seen_scenario envPriorA (some ["A"]) lA lB lC rfl rfl
    (by decide) (by decide) (by decide) (fun x _ => rfl) rfl

/-! ## Claim C4 -/

/-- C4: from an empty prior seen-set, one successful run notifies exactly
once per distinct fetched identifier; a second run over the same sequence,
loading the seen-set the first run durably produced, notifies nothing and
leaves the durable record exactly as the first run wrote it. The first
conclusion (the run reports success) holds for every nonempty sequence; an
empty fetch makes the deferred flush panic on the never-populated cache (see
the C6 analysis), though the notification and durable conclusions hold then
as well. -/
theorem C4_idempotent_rerun (env1 env2 : Env) (d : Option (List String)) (ls : List Listing)
    (h1f : env1.fetchResult = .ok ⟨ls⟩)
    (h1g : env1.getItem = .ok (some []))
    (h1n : ∀ x, env1.notifyOk x = true)
    (h1p : env1.putItemOk = true)
    (h2f : env2.fetchResult = .ok ⟨ls⟩)
    (h2g : env2.getItem = .ok ((HandleRequest env1 d).durable)) :
    (ls ≠ [] → (HandleRequest env1 d).result = .ok) ∧
    (∀ id, (((HandleRequest env1 d).notified).map Listing.ID).count id =
      if id ∈ ls.map Listing.ID then 1 else 0) ∧
    (HandleRequest env2 ((HandleRequest env1 d).durable)).notified = [] ∧
    (HandleRequest env2 ((HandleRequest env1 d).durable)).durable =
      (HandleRequest env1 d).durable := by
  cases ls with
  | nil =>
      have hrun1 : HandleRequest env1 d =
          { result := .panicked, notified := [], durable := d } := by
        simp [HandleRequest, h1f, processListings, NewDB, DB.Flush]
      have hrun2 : HandleRequest env2 d =
          { result := .panicked, notified := [], durable := d } := by
        simp [HandleRequest, h2f, processListings, NewDB, DB.Flush]
      rw [hrun1]
      refine ⟨fun h => absurd rfl h, by simp, ?_, ?_⟩ <;> simp [hrun2]
  | cons l rest =>
      have hrun1 := HandleRequest_loaded env1 d [] (l :: rest) (by simp) h1f h1g
        (fun x _ => h1n x) h1p
      rw [hrun1] at h2g ⊢
      have hall : ∀ x ∈ l :: rest, x.ID ∈ (runPure [] (l :: rest)).2 := by
        intro x hx
        rw [runPure_snd_mem]
        exact Or.inr (List.mem_map.mpr ⟨x, hx, rfl⟩)
      have hloop2 := processListings_all_seen env2 (l :: rest)
        ⟨some ⟨dynamoPartitionKeyValue, (runPure [] (l :: rest)).2⟩⟩ []
        ⟨dynamoPartitionKeyValue, (runPure [] (l :: rest)).2⟩ rfl hall
      have hrun2 : HandleRequest env2 (some ((runPure [] (l :: rest)).2)) =
          { result := if env2.putItemOk then .ok else .fatalExit .writeFailure,
            notified := [],
            durable := some ((runPure [] (l :: rest)).2) } := by
        simp only [HandleRequest, h2f]
        rw [show NewDB = (⟨none⟩ : DB) from rfl]
        rw [processListings_none_cons env2 (some ((runPure [] (l :: rest)).2)) h2g l rest []]
        rw [show unmarshalCacheRecord (some ((runPure [] (l :: rest)).2)) =
          ⟨dynamoPartitionKeyValue, (runPure [] (l :: rest)).2⟩ from rfl]
        rw [hloop2]
        cases hp : env2.putItemOk <;> simp [DB.Flush, hp]
      refine ⟨fun _ => rfl, ?_, ?_, ?_⟩
      · intro id
        simpa using runPure_count (l :: rest) [] id
      · rw [hrun2]
      · rw [hrun2]

/-- C4 witness: the re-run scenario at the concrete sequence [lA, lB]. -/
theorem C4_witness :
    (([lA, lB] : List Listing) ≠ [] → (HandleRequest envRun1 (some [])).result = .ok) ∧
    (∀ id, (((HandleRequest envRun1 (some [])).notified).map Listing.ID).count id =
      if id ∈ ([lA, lB] : List Listing).map Listing.ID then 1 else 0) ∧
    (HandleRequest envRun2 ((HandleRequest envRun1 (some [])).durable)).notified = [] ∧
    (HandleRequest envRun2 ((HandleRequest envRun1 (some [])).durable)).durable =
      (HandleRequest envRun1 (some [])).durable :=
  C4_idempotent_rerun envRun1 envRun2 (some []) [lA, lB] rfl rfl
    (fun _ => rfl) rfl rfl rfl

/-! ## Claim C5 -/

/-- C5: if the fetched sequence contains the same identifier at two
positions (a at the first, b with b.ID = a.ID later), a run with the id not
previously seen notifies that identifier exactly once, the notified
occurrence is the first one (a itself is among the notified listings), and
the flushed durable set records the identifier exactly once — the second
occurrence is found already seen and skipped. -/
theorem C5_duplicate_notified_once (env : Env) (d : Option (List String)) (s : List String)
    (xs ys zs : List Listing) (a b : Listing)
    (hfetch : env.fetchResult = .ok ⟨xs ++ (a :: (ys ++ (b :: zs)))⟩)
    (hget : env.getItem = .ok (some s))
    (hn : ∀ x, env.notifyOk x = true)
    (hput : env.putItemOk = true)
    (_hdup : b.ID = a.ID)
    (ha : a.ID ∉ s)
    (hxs : a.ID ∉ xs.map Listing.ID) :
    (((HandleRequest env d).notified).map Listing.ID).count a.ID = 1 ∧
    a ∈ (HandleRequest env d).notified ∧
    (durableIds ((HandleRequest env d).durable)).count a.ID = 1 := by
  have hne : xs ++ (a :: (ys ++ (b :: zs))) ≠ [] := by simp
  rw [HandleRequest_loaded env d s (xs ++ (a :: (ys ++ (b :: zs)))) hne hfetch hget
    (fun x _ => hn x) hput]
  have hmem : a.ID ∈ (xs ++ (a :: (ys ++ (b :: zs)))).map Listing.ID := by
    refine List.mem_map.mpr ⟨a, ?_, rfl⟩
    simp
  refine ⟨?_, ?_, ?_⟩
  · show (((runPure s (xs ++ (a :: (ys ++ (b :: zs))))).1).map Listing.ID).count a.ID = 1
    rw [runPure_count]
    simp [ha, hmem]
  · show a ∈ (runPure s (xs ++ (a :: (ys ++ (b :: zs))))).1
    exact runPure_first_mem xs s a (ys ++ (b :: zs)) ha hxs
  · show (durableIds (some ((runPure s (xs ++ (a :: (ys ++ (b :: zs))))).2))).count a.ID = 1
    rw [show durableIds (some ((runPure s (xs ++ (a :: (ys ++ (b :: zs))))).2)) =
      (runPure s (xs ++ (a :: (ys ++ (b :: zs))))).2 from rfl]
    rw [runPure_snd_eq_append]
    rw [List.count_append]
    rw [List.count_eq_zero_of_not_mem ha]
    rw [runPure_count]
    simp [ha, hmem]

/-- C5 witness: the duplicate scenario with fetch [lA, lA2, lB] where lA2
carries the same id as lA, from an empty prior seen-set. -/
theorem C5_witness :
    (((HandleRequest envDupFetch (some [])).notified).map Listing.ID).count lA.ID = 1 ∧
    lA ∈ (HandleRequest envDupFetch (some [])).notified ∧
    (durableIds ((HandleRequest envDupFetch (some [])).durable)).count lA.ID = 1 :=
  C5_duplicate_notified_once envDupFetch (some []) [] [] [] [lB] lA lA2
    rfl rfl (fun _ => rfl) rfl rfl (by decide) (by decide)

/-! ## Claim C6 -/

/-- C6 evaluation at the failing input: when the fetch succeeds with an
empty listing sequence, the loop never runs, no isSeen call ever populates
the cache, and the deferred Flush dereferences the nil cache at main.go line
147 — the very line whose comment says it handles the empty cache — so the
run panics instead of flushing faultlessly; the durable record is left
untouched. -/
theorem C6_empty_fetch_flush_panics :
    HandleRequest envEmptyFetch (some ["X"]) =
      { result := .panicked, notified := [], durable := some ["X"] } := by
  decide

/-! ## Claim C7 -/

/-- C7: loading the store when no durable record exists behaves, for every
subsequent isSeen query, exactly like loading a record with an explicit
empty id sequence: in both cases the first Seen call succeeds returning
false, the working set initializes empty, and every later Seen query on the
loaded store returns false for every listing. -/
theorem C7_absent_record_equals_empty_record (envA envP : Env) (db : DB) (l : Listing)
    (hdb : db.cache = none)
    (hA : envA.getItem = .ok none)
    (hP : envP.getItem = .ok (some [])) :
    (DB.Seen envA db l).1 = .ok false ∧
    (DB.Seen envP db l).1 = .ok false ∧
    seenIdsOfDB (DB.Seen envA db l).2 = some [] ∧
    seenIdsOfDB (DB.Seen envP db l).2 = some [] ∧
    (∀ (env' : Env) (l2 : Listing), (DB.Seen env' (DB.Seen envA db l).2 l2).1 = .ok false) ∧
    (∀ (env' : Env) (l2 : Listing), (DB.Seen env' (DB.Seen envP db l).2 l2).1 = .ok false) := by
  simp [DB.Seen, DB.refreshCache, hdb, hA, hP, unmarshalCacheRecord, seenInList, seenIdsOfDB]

/-- C7 witness: the comparison at a fresh DB with the concrete environments
whose durable read returns an absent record and a present-but-empty
record. -/
theorem C7_witness :
    (DB.Seen envAbsentRecord NewDB lA).1 = .ok false ∧
    (DB.Seen envEmptyRecord NewDB lA).1 = .ok false ∧
    seenIdsOfDB (DB.Seen envAbsentRecord NewDB lA).2 = some [] ∧
    seenIdsOfDB (DB.Seen envEmptyRecord NewDB lA).2 = some [] ∧
    (∀ (env' : Env) (l2 : Listing),
      (DB.Seen env' (DB.Seen envAbsentRecord NewDB lA).2 l2).1 = .ok false) ∧
    (∀ (env' : Env) (l2 : Listing),
      (DB.Seen env' (DB.Seen envEmptyRecord NewDB lA).2 l2).1 = .ok false) :=
  C7_absent_record_equals_empty_record envAbsentRecord envEmptyRecord NewDB lA rfl rfl rfl

/-! ## Claim C8 -/

/-- C8 counterexample: MarkSeen appends unconditionally (main.go line 141),
so calling it with an identifier already present in the working set changes
the working set — the list becomes ["A", "A"] — refuting the claim that a
duplicate add leaves the working set (and the value later flushed)
unchanged. -/
theorem C8_counterexample :
    (dbWithA.MarkSeen lA).2.cache = some ⟨"seen-listings", ["A", "A"]⟩ ∧
    (dbWithA.MarkSeen lA).2 ≠ dbWithA ∧
    (DB.Flush envPriorA (dbWithA.MarkSeen lA).2 (some ["A"])).2.2 = some ["A", "A"] := by
  decide

/-- C8 (amended): markSeen on a loaded store always succeeds and appends the
identifier to the working-set list, so a duplicate add physically grows the
list (and the value later flushed); it is a no-op only at membership level:
the membership scan used by isSeen answers exactly the same for every
identifier before and after a duplicate add. -/
theorem C8_duplicate_add_membership_noop (db : DB) (c : ListingCache) (l : Listing)
    (hdb : db.cache = some c) (hmem : l.ID ∈ c.SeenIDs) :
    (db.MarkSeen l).1 = .ok () ∧
    seenIdsOfDB (db.MarkSeen l).2 = some (c.SeenIDs ++ [l.ID]) ∧
    (∀ x, seenInList x (c.SeenIDs ++ [l.ID]) = seenInList x c.SeenIDs) := by
  refine ⟨by simp [DB.MarkSeen, hdb], by simp [DB.MarkSeen, hdb, seenIdsOfDB], ?_⟩
  intro x
  cases hx : seenInList x c.SeenIDs with
  | true =>
      exact (seenInList_eq_true_iff _ _).mpr
        (List.mem_append_left _ ((seenInList_eq_true_iff _ _).mp hx))
  | false =>
      have hnx : x ∉ c.SeenIDs := (seenInList_eq_false_iff _ _).mp hx
      refine (seenInList_eq_false_iff _ _).mpr ?_
      intro hmem'
      rcases List.mem_append.mp hmem' with h | h
      · exact hnx h
      · rw [List.mem_singleton] at h
        exact hnx (h ▸ hmem)

/-- C8 witness: the amended statement at the store already containing "A"
and a duplicate add of lA. -/
theorem C8_witness :
    (dbWithA.MarkSeen lA).1 = .ok () ∧
    seenIdsOfDB (dbWithA.MarkSeen lA).2 = some (["A"] ++ [lA.ID]) ∧
    (∀ x, seenInList x (["A"] ++ [lA.ID]) = seenInList x ["A"]) :=
  C8_duplicate_add_membership_noop dbWithA ⟨"seen-listings", ["A"]⟩ lA rfl (by decide)

/-! ## Claim C9 -/

/-- C9: the markSeen error the coordinator discards is unreachable — after
any Seen call that returned without error, the working set is loaded
(the cache is populated), and MarkSeen invoked on that store state always
returns ok. -/
theorem C9_markseen_after_ok_seen_succeeds (env : Env) (db : DB) (l : Listing) (b : Bool)
    (h : (DB.Seen env db l).1 = .ok b) :
    ((DB.Seen env db l).2).cache.isSome = true ∧
    (∀ l2 : Listing, (((DB.Seen env db l).2).MarkSeen l2).1 = .ok ()) := by
  cases hdb : db.cache with
  | some c =>
      constructor
      · simp [DB.Seen, hdb]
      · intro l2
        simp [DB.Seen, hdb, DB.MarkSeen]
  | none =>
      cases hg : env.getItem with
      | error e =>
          exfalso
          simp [DB.Seen, DB.refreshCache, hdb, hg] at h
      | ok item =>
          constructor
          · simp [DB.Seen, DB.refreshCache, hdb, hg]
          · intro l2
            simp [DB.Seen, DB.refreshCache, hdb, hg, DB.MarkSeen]

/-- C9 witness: after the successful Seen call of the absent-record
environment on a fresh DB, MarkSeen succeeds. -/
theorem C9_witness :
    ((DB.Seen envAbsentRecord NewDB lA).2).cache.isSome = true ∧
    (∀ l2 : Listing, (((DB.Seen envAbsentRecord NewDB lA).2).MarkSeen l2).1 = .ok ()) :=
  C9_markseen_after_ok_seen_succeeds envAbsentRecord NewDB lA false rfl

/-! ## Claim C10 -/

/-- C10: after a successful load the working set only grows — a Seen call on
a loaded store leaves the store state unchanged; MarkSeen only appends; over
a whole loop the initial id list is a prefix (hence a subset) of the final
one; and a successful Flush writes exactly the current working-set ids, so
every identifier present at load time or added during the run is contained
in the durable set a successful flush writes. -/
theorem C10_working_set_monotone :
    (∀ (env : Env) (db : DB) (l : Listing) (c : ListingCache),
      db.cache = some c → (DB.Seen env db l).2 = db) ∧
    (∀ (db : DB) (l : Listing) (c : ListingCache),
      db.cache = some c →
      ((db.MarkSeen l).2).cache = some { c with SeenIDs := c.SeenIDs ++ [l.ID] }) ∧
    (∀ (env : Env) (ls : List Listing) (db : DB) (acc : List Listing) (c : ListingCache),
      db.cache = some c →
      ∃ c', ((processListings env db acc ls).1).cache = some c' ∧
        c.SeenIDs <+: c'.SeenIDs) ∧
    (∀ (env : Env) (db : DB) (d : Option (List String)) (c : ListingCache),
      db.cache = some c → env.putItemOk = true →
      (db.Flush env d).2.2 = some c.SeenIDs) := by
  refine ⟨?_, ?_, ?_, ?_⟩
  · intro env db l c hdb
    simp [DB.Seen, hdb]
  · intro db l c hdb
    simp [DB.MarkSeen, hdb]
  · intro env ls db acc c hdb
    rcases processListings_cache_prefix env ls db acc c hdb with ⟨c', h1, _, h3⟩
    exact ⟨c', h1, h3⟩
  · intro env db d c hdb hput
    simp [DB.Flush, hdb, hput]

/-- C10 witness: each conjunct at a loaded store containing id "A": a Seen
call leaves it unchanged, MarkSeen appends "B", a loop over [lB] grows the
id list with the old list as prefix, and a successful Flush writes exactly
the working-set ids. -/
theorem C10_witness :
    (DB.Seen envPriorA dbWithA lB).2 = dbWithA ∧
    ((dbWithA.MarkSeen lB).2).cache = some ⟨"seen-listings", ["A", "B"]⟩ ∧
    (∃ c', ((processListings envPriorA dbWithA [] [lB]).1).cache = some c' ∧
      ["A"] <+: c'.SeenIDs) ∧
    (DB.Flush envPriorA dbWithA (some ["Z"])).2.2 = some ["A"] :=
  ⟨C10_working_set_monotone.1 envPriorA dbWithA lB ⟨"seen-listings", ["A"]⟩ rfl,
   C10_working_set_monotone.2.1 dbWithA lB ⟨"seen-listings", ["A"]⟩ rfl,
   C10_working_set_monotone.2.2.1 envPriorA [lB] dbWithA [] ⟨"seen-listings", ["A"]⟩ rfl,
   C10_working_set_monotone.2.2.2 envPriorA dbWithA (some ["Z"]) ⟨"seen-listings", ["A"]⟩
     rfl rfl⟩

end Realtorca
